import Mathlib

/-!
Shallow embedding of `nerfspeed.c` (avr-nerfspeed)

The program targets an ATmega8 (avr-gcc): `unsigned char` is 8 bits, `int` and
`unsigned int` are 16 bits, `unsigned long` is 32 bits.  Machine integers are
modelled as `Nat`/`Int`; every operation that can wrap carries its modulus.

Global variables and the two output ports written by the handlers form the
record `State`.  Interrupt handlers are functions on `State`; the body of the
`while(1)` loop of `main` is `mainLoop`.  Configuration registers written once
in `main` (DDRB, DDRD, OCR2, TCCR2, TCCR1B, TIMSK) are not modelled.
-/

namespace NerfSpeed

/-! Section: Constants -/

/-- Macro `MAX_SPEED` (`#define MAX_SPEED 37500`). -/
def MAX_SPEED : Nat := 37500

/-- Macro `MAX_OVERFLOWS` (`#define MAX_OVERFLOWS (MAX_SPEED/65536+1)`). -/
def MAX_OVERFLOWS : Nat := MAX_SPEED / 65536 + 1

/-- Macro `PLEXDELAY` (`#define PLEXDELAY 32`). -/
def PLEXDELAY : Nat := 32

/-- The table `segmentCode[]` (bit layout `0gfedcba`, active low). -/
def segmentCode : List Nat :=
  [ 0b11000000, 0b11111001, 0b10100100, 0b10110000, 0b10011001,
    0b10010010, 0b10000010, 0b11111000, 0b10000000, 0b10010000,
    0b11111111, 0b10001000, 0b11000110, 0b10000110, 0b10001110,
    0b10001001, 0b11110001, 0b11000111, 0b10001100, 0b11000001,
    0b10111111, 0b11110111 ]

/-- The read `segmentCode[i]`.  The table has 22 entries; a read past its end is
undefined in C and yields 0 here. -/
def segmentCodeAt (i : Nat) : Nat := segmentCode.getD i 0

def SEG_OFF : Nat := 10
def LETTER_A : Nat := 11
def LETTER_C : Nat := 12
def LETTER_E : Nat := 13
def LETTER_F : Nat := 14
def LETTER_H : Nat := 15
def LETTER_J : Nat := 16
def LETTER_L : Nat := 17
def LETTER_P : Nat := 18
def LETTER_U : Nat := 19
def SYM_DASH : Nat := 20
def SYM_USCR : Nat := 21

/-! Section: State -/

/-- The global variables of the program together with the ports the handlers
write.  `capture[2]` and `currentCode[3]` are stored element by element. -/
structure State where
  /-- Variable `unsigned char currentSegment`. -/
  currentSegment : Nat
  /-- Element `currentCode[0]`. -/
  currentCode0 : Nat
  /-- Element `currentCode[1]`. -/
  currentCode1 : Nat
  /-- Element `currentCode[2]`. -/
  currentCode2 : Nat
  /-- Variable `unsigned int overflows`. -/
  overflows : Nat
  /-- Variable `unsigned int captured`. -/
  captured : Nat
  /-- Element `capture[0]`. -/
  capture0 : Nat
  /-- Element `capture[1]`. -/
  capture1 : Nat
  /-- I/O register PORTB (8 bits). -/
  PORTB : Nat
  /-- I/O register PORTD (8 bits). -/
  PORTD : Nat
  /-- Timer 2 counter register. -/
  TCNT2 : Nat
deriving DecidableEq, Repr

/-- Every variable holds a value of its C type. -/
def State.WellFormed (s : State) : Prop :=
  s.currentSegment < 256 ∧ s.currentCode0 < 256 ∧ s.currentCode1 < 256 ∧
  s.currentCode2 < 256 ∧ s.overflows < 65536 ∧ s.captured < 65536 ∧
  s.capture0 < 65536 ∧ s.capture1 < 65536 ∧ s.PORTB < 256 ∧ s.PORTD < 256 ∧
  s.TCNT2 < 256

/-- The write `capture[i] = v`.  The array has two elements; the only write in
the program is guarded by `captured < 2`. -/
def State.writeCapture (s : State) (i v : Nat) : State :=
  match i with
  | 0 => { s with capture0 := v }
  | 1 => { s with capture1 := v }
  | _ => s

/-- The read `currentCode[i]`; 0 past the end of the three-element array. -/
def State.readCurrentCode (s : State) (i : Nat) : Nat :=
  match i with
  | 0 => s.currentCode0
  | 1 => s.currentCode1
  | 2 => s.currentCode2
  | _ => 0

/-! Section: setSegments -/

/-- The loop `while( num > 999 ) num -= 1000;`. -/
def reduceThousands (num : Int) : Int :=
  if 999 < num then reduceThousands (num - 1000) else num
termination_by num.toNat
decreasing_by omega

/-- The loop `for( digit = 0; num >= 100; digit++ ) num -= 100;` entered with
the given `digit` (an `unsigned char`); returns the final `(num, digit)`. -/
def hundredsLoop (num : Int) (digit : Nat) : Int × Nat :=
  if 100 ≤ num then hundredsLoop (num - 100) ((digit + 1) % 256) else (num, digit)
termination_by num.toNat
decreasing_by omega

/-- The loop `for( digit = 0; num >= 10; digit++ ) num -= 10;` entered with the
given `digit`; returns the final `(num, digit)`. -/
def tensLoop (num : Int) (digit : Nat) : Int × Nat :=
  if 10 ≤ num then tensLoop (num - 10) ((digit + 1) % 256) else (num, digit)
termination_by num.toNat
decreasing_by omega

/-- Function `void setSegments(int num, unsigned char code0, code1, code2)`. -/
def setSegments (num : Int) (code0 code1 code2 : Nat) (s : State) : State :=
  if num < 0 then
    { s with
      currentCode0 := segmentCodeAt code0
      currentCode1 := segmentCodeAt code1
      currentCode2 := segmentCodeAt code2 }
  else
    let num1 := reduceThousands num
    let h := hundredsLoop num1 0
    let t := tensLoop h.1 0
    { s with
      currentCode0 := segmentCodeAt h.2
      currentCode1 := segmentCodeAt t.2
      currentCode2 := segmentCodeAt t.1.toNat }

/-- Macro `SETTEXT(a,b,c)`, defined as `setSegments(-1,a,b,c)`. -/
def SETTEXT (a b c : Nat) (s : State) : State := setSegments (-1) a b c s

/-- Macro `SETNUM(n)`, defined as `setSegments(n,LETTER_E,0,1)`. -/
def SETNUM (n : Int) (s : State) : State := setSegments n LETTER_E 0 1 s

/-! Section: Interrupt handlers -/

/-- Handler `ISR(TIMER1_CAPT_vect)`; `icr1` is the value read from the 16-bit input
capture register ICR1. -/
def TIMER1_CAPT_vect (icr1 : Nat) (s : State) : State :=
  if s.captured < 2 then
    let s1 := if s.captured = 0 then { s with overflows := 0 } else s
    let s2 := s1.writeCapture s1.captured icr1
    { s2 with captured := (s2.captured + 1) % 65536 }
  else s

/-- Handler `ISR(TIMER1_OVF_vect)`. -/
def TIMER1_OVF_vect (s : State) : State :=
  if s.captured = 1 then
    let s1 := { s with overflows := (s.overflows + 1) % 65536 }
    if MAX_OVERFLOWS < s1.overflows then { s1 with captured := 0 } else s1
  else s

/-- Handler `ISR(TIMER2_COMP_vect)`.  `~(1 << (currentSegment+1))` is computed in 16-bit
`int` and truncated to the 8 bits of PORTB. -/
def TIMER2_COMP_vect (s : State) : State :=
  let s1 := { s with PORTB := s.PORTB ||| 0b00001110 }
  let s2 := { s1 with PORTD := s1.readCurrentCode s1.currentSegment }
  let s3 := { s2 with
    PORTB := s2.PORTB &&& ((65535 - (1 <<< (s2.currentSegment + 1)) % 65536) % 256) }
  let s4 :=
    if s3.currentSegment = 2 then { s3 with currentSegment := 0 }
    else { s3 with currentSegment := (s3.currentSegment + 1) % 256 }
  { s4 with TCNT2 := 0 }

/-! Section: calculateSpeed -/

/-- The loop `while( numerator >= denominator ) { result++; numerator -= denominator; }`
on 32-bit unsigned `numerator`, `denominator` and `int result`; returns the final
`(numerator, result)`.  The first argument bounds the number of loop tests;
`none` means the bound was reached with the loop still running. -/
def divLoop : Nat → Nat → Nat → Int → Option (Nat × Int)
  | 0, _, _, _ => none
  | fuel + 1, numerator, denominator, result =>
    if denominator ≤ numerator then
      divLoop fuel ((numerator + 4294967296 - denominator) % 4294967296) denominator
        (result + 1)
    else some (numerator, result)

/-- The 32-bit unsigned `denominator` of `calculateSpeed`:
`capture[1] + (unsigned long)overflows*65536 - capture[0]`, each step modulo 2^32. -/
def denominatorOf (s : State) : Nat :=
  let denominator := s.capture1
  let denominator := (denominator + (s.overflows * 65536) % 4294967296) % 4294967296
  (denominator + 4294967296 - s.capture0) % 4294967296

/-- Function `int calculateSpeed()`.  The loop is given `MAX_SPEED + 1` tests, which it
cannot exhaust unless `denominator` is 0; `none` stands for a loop that does not
terminate. -/
def calculateSpeed (s : State) : Option Int :=
  let numerator := MAX_SPEED
  let halfNumerator := MAX_SPEED / 2
  let denominator := denominatorOf s
  if denominator ≤ numerator / 999 then some (-1)
  else
    match divLoop (MAX_SPEED + 1) numerator denominator 0 with
    | none => none
    | some (numerator, result) =>
      if halfNumerator ≤ numerator then some (result + 1) else some result

/-! Section: main -/

/-- The variables as initialised statically, with PORTB and PORTD as `main`
sets them. -/
def initialState : State :=
  { currentSegment := 0, currentCode0 := 0, currentCode1 := 0, currentCode2 := 0,
    overflows := 0, captured := 0, capture0 := 0, capture1 := 0,
    PORTB := 0b11111110, PORTD := 0b11111111, TCNT2 := 0 }

/-- The state when `main` executes `sei()`, after `SETTEXT(LETTER_H,1,SEG_OFF)`. -/
def startState : State := SETTEXT LETTER_H 1 SEG_OFF initialState

/-- One iteration of the `while(1)` loop of `main`, after `sleep_mode()` returns. -/
def mainLoop (s : State) : Option State :=
  let s1 := if MAX_OVERFLOWS < s.overflows then SETTEXT LETTER_L 0 SEG_OFF s else s
  let s2 := if s1.captured = 1 then SETTEXT SYM_DASH SYM_DASH SYM_DASH s1 else s1
  if s2.captured = 2 then
    match calculateSpeed s2 with
    | none => none
    | some v =>
      let s3 := SETNUM v s2
      let s4 := { s3 with overflows := 0 }
      some { s4 with captured := 0 }
  else some s2

/-! Section: Event system -/

/-- What can run once interrupts are enabled: the three handlers and one
iteration of the main loop, each taken as an atomic step. -/
inductive Event where
  | capture (icr1 : Nat)
  | overflow
  | refresh
  | mainIteration
deriving DecidableEq, Repr

/-- One step of the system. -/
def step : Event → State → Option State
  | .capture icr1, s => some (TIMER1_CAPT_vect icr1 s)
  | .overflow, s => some (TIMER1_OVF_vect s)
  | .refresh, s => some (TIMER2_COMP_vect s)
  | .mainIteration, s => mainLoop s

/-- A sequence of steps, first event first. -/
def run : List Event → State → Option State
  | [], s => some s
  | e :: es, s => (step e s).bind (run es)

/-- Spec wording of the speed rule: `floor(K / Interval)` plus 1 if the remainder
`K − floor(K/Interval)·Interval` is at least `Interval/2`. -/
def specRoundHalfUp (K interval : Nat) : Int :=
  let speed := K / interval
  if interval / 2 ≤ K - speed * interval then (speed : Int) + 1 else speed

/-- Closed form of the value `calculateSpeed` returns for a 32-bit denominator `d`
(established by `calculateSpeed_eq`): the error value up to 37, otherwise the floored
quotient, plus one when the remainder reaches `MAX_SPEED/2`. -/
def speedOf (d : Nat) : Int :=
  if d ≤ 37 then -1
  else if 18750 ≤ 37500 % d then ((37500 / d : Nat) : Int) + 1 else ((37500 / d : Nat) : Int)

/-- Spec wording of Interval: `t_second + OverflowCount·2^16 − t_first`, as a
mathematical (signed, unbounded) integer. -/
def specInterval (s : State) : Int :=
  (s.capture1 : Int) + (s.overflows : Int) * 65536 - (s.capture0 : Int)

/-- A pending result with the given timestamps and overflow count: `captured = 2`,
`capture = {c0, c1}`, `overflows = ov`, everything else as at start-up. -/
def pendingState (c0 c1 ov : Nat) : State :=
  { startState with capture0 := c0, capture1 := c1, overflows := ov, captured := 2 }

/-- The invariant of the capture state machine: `captured` is 0, 1 or 2,
`overflows` is at most `MAX_OVERFLOWS + 1`, and it exceeds `MAX_OVERFLOWS` only
while `captured` is 0. -/
def CaptureInvariant (s : State) : Prop :=
  s.captured ≤ 2 ∧ s.overflows ≤ MAX_OVERFLOWS + 1 ∧
    (MAX_OVERFLOWS < s.overflows → s.captured = 0)

/-- The write `currentCode[i] = v`, one of the three stores `setSegments` executes
one after another. -/
def State.writeCurrentCode (s : State) (i v : Nat) : State :=
  match i with
  | 0 => { s with currentCode0 := v }
  | 1 => { s with currentCode1 := v }
  | 2 => { s with currentCode2 := v }
  | _ => s

/-- Spec wording of the main control loop as a prioritized chain: if OverflowCount
exceeds MaxOverflow, display the "too slow" indicator; else if CaptureCount is 1,
display three dashes; else if CaptureCount is 2, display the calculated result and
reset CaptureCount and OverflowCount to 0; otherwise change nothing. -/
def specMainLoop (s : State) : Option State :=
  if MAX_OVERFLOWS < s.overflows then some (SETTEXT LETTER_L 0 SEG_OFF s)
  else if s.captured = 1 then some (SETTEXT SYM_DASH SYM_DASH SYM_DASH s)
  else if s.captured = 2 then
    match calculateSpeed s with
    | none => none
    | some v => some { SETNUM v s with overflows := 0, captured := 0 }
  else some s

/-! Section: auxiliary lemmas on the loops -/

/-- With a positive denominator and enough loop tests, the subtraction loop
returns the remainder and adds the quotient to `result`. -/
theorem divLoop_eq (fuel : Nat) : ∀ (n d : Nat) (r : Int), 0 < d → n < 4294967296 →
    n / d < fuel → divLoop fuel n d r = some (n % d, r + ((n / d : Nat) : Int)) := by
  induction fuel with
  | zero => intro n d r _ _ h; exact absurd h (Nat.not_lt_zero _)
  | succ k ih =>
    intro n d r hd hn hq
    unfold divLoop
    by_cases hdn : d ≤ n
    · have hsub : (n + 4294967296 - d) % 4294967296 = n - d := by omega
      have hdiv : n / d = (n - d) / d + 1 := by
        have h1 : n = (n - d) + d := by omega
        conv_lhs => rw [h1]
        exact Nat.add_div_right _ hd
      have hmod : n % d = (n - d) % d := by
        have h1 : n = (n - d) + d := by omega
        conv_lhs => rw [h1]
        exact Nat.add_mod_right _ _
      rw [if_pos hdn, hsub, ih (n - d) d (r + 1) hd (by omega) (by omega), hdiv, hmod]
      push_cast
      congr 2
      ring
    · have hlt : n < d := by omega
      rw [if_neg hdn, Nat.mod_eq_of_lt hlt, Nat.div_eq_of_lt hlt]
      simp

theorem denominatorOf_lt (s : State) : denominatorOf s < 4294967296 := by
  unfold denominatorOf
  exact Nat.mod_lt _ (by norm_num)

/-- Closed form of `calculateSpeed`: it always returns, and the value is a function
of the denominator alone. -/
theorem calculateSpeed_eq (s : State) : calculateSpeed s = some (speedOf (denominatorOf s)) := by
  unfold calculateSpeed speedOf
  simp only [MAX_SPEED]
  norm_num
  by_cases h : denominatorOf s ≤ 37
  · simp [h]
  · have hd : 0 < denominatorOf s := by omega
    have hq : 37500 / denominatorOf s < 37501 := by
      have := Nat.div_le_self 37500 (denominatorOf s)
      omega
    rw [if_neg h, if_neg h, divLoop_eq 37501 37500 (denominatorOf s) 0 hd (by norm_num) hq]
    by_cases h2 : 18750 ≤ 37500 % denominatorOf s
    · simp [h2]
    · simp [h2]

theorem reduceThousands_of_le (num : Int) (h : num ≤ 999) : reduceThousands num = num := by
  rw [reduceThousands, if_neg (by omega)]

theorem hundredsLoop_eq (k : Nat) : ∀ (num : Int) (digit : Nat), 0 ≤ num →
    num < 100 * (k : Int) → digit + k ≤ 256 →
    hundredsLoop num digit = (num % 100, digit + (num / 100).toNat) := by
  induction k with
  | zero => intro num digit h0 h1 _; omega
  | succ k ih =>
    intro num digit h0 h1 hd
    rw [hundredsLoop]
    by_cases h : 100 ≤ num
    · rw [if_pos h, Nat.mod_eq_of_lt (by omega),
        ih (num - 100) (digit + 1) (by omega) (by push_cast at h1; omega) (by omega)]
      refine Prod.ext ?_ ?_
      · show (num - 100) % 100 = num % 100
        omega
      · show digit + 1 + ((num - 100) / 100).toNat = digit + (num / 100).toNat
        omega
    · rw [if_neg h]
      refine Prod.ext ?_ ?_
      · show num = num % 100
        omega
      · show digit = digit + (num / 100).toNat
        omega

theorem tensLoop_eq (k : Nat) : ∀ (num : Int) (digit : Nat), 0 ≤ num →
    num < 10 * (k : Int) → digit + k ≤ 256 →
    tensLoop num digit = (num % 10, digit + (num / 10).toNat) := by
  induction k with
  | zero => intro num digit h0 h1 _; omega
  | succ k ih =>
    intro num digit h0 h1 hd
    rw [tensLoop]
    by_cases h : 10 ≤ num
    · rw [if_pos h, Nat.mod_eq_of_lt (by omega),
        ih (num - 10) (digit + 1) (by omega) (by push_cast at h1; omega) (by omega)]
      refine Prod.ext ?_ ?_
      · show (num - 10) % 10 = num % 10
        omega
      · show digit + 1 + ((num - 10) / 10).toNat = digit + (num / 10).toNat
        omega
    · rw [if_neg h]
      refine Prod.ext ?_ ?_
      · show num = num % 10
        omega
      · show digit = digit + (num / 10).toNat
        omega

/-- On a number `n` in 0..999 `setSegments` installs the glyphs of the hundreds,
tens and ones digits and touches nothing else. -/
theorem setSegments_number (n : Nat) (hn : n ≤ 999) (a b c : Nat) (s : State) :
    setSegments (n : Int) a b c s =
      { s with
        currentCode0 := segmentCodeAt (n / 100)
        currentCode1 := segmentCodeAt (n / 10 % 10)
        currentCode2 := segmentCodeAt (n % 10) } := by
  unfold setSegments
  rw [if_neg (by omega), reduceThousands_of_le _ (by omega)]
  have hh := hundredsLoop_eq 10 (n : Int) 0 (by omega) (by omega) (by omega)
  simp only [hh]
  have ht := tensLoop_eq 10 ((n : Int) % 100) 0 (by omega) (by omega) (by omega)
  simp only [ht]
  have e1 : 0 + ((n : Int) / 100).toNat = n / 100 := by omega
  have e2 : 0 + ((n : Int) % 100 / 10).toNat = n / 10 % 10 := by omega
  have e3 : ((n : Int) % 100 % 10).toNat = n % 10 := by omega
  rw [e1, e2, e3]

/-- On a negative number `setSegments` installs the three given glyph codes. -/
theorem setSegments_text (num : Int) (hn : num < 0) (a b c : Nat) (s : State) :
    setSegments num a b c s =
      { s with
        currentCode0 := segmentCodeAt a
        currentCode1 := segmentCodeAt b
        currentCode2 := segmentCodeAt c } := by
  unfold setSegments
  rw [if_pos hn]

theorem denominatorOf_of_le (s : State) (h0 : s.capture0 < 65536) (h1 : s.capture1 < 65536)
    (hov : s.overflows < 65536) (h : s.capture0 ≤ s.capture1 + s.overflows * 65536) :
    denominatorOf s = s.capture1 + s.overflows * 65536 - s.capture0 := by
  simp only [denominatorOf]
  omega

theorem denominatorOf_of_gt (s : State) (h0 : s.capture0 < 65536) (h1 : s.capture1 < 65536)
    (hov : s.overflows < 65536) (h : s.capture1 + s.overflows * 65536 < s.capture0) :
    denominatorOf s = 4294967296 + s.capture1 + s.overflows * 65536 - s.capture0 := by
  simp only [denominatorOf]
  omega

/-- Below `MAX_SPEED` the remainder never reaches `MAX_SPEED/2`. -/
theorem speedOf_of_le (d : Nat) (h1 : 38 ≤ d) (h2 : d ≤ 37500) :
    speedOf d = ((37500 / d : Nat) : Int) := by
  unfold speedOf
  rw [if_neg (by omega)]
  have hq : 1 ≤ 37500 / d := (Nat.one_le_div_iff (by omega)).2 h2
  have hm := Nat.div_add_mod 37500 d
  have hmul : d ≤ d * (37500 / d) := Nat.le_mul_of_pos_right d hq
  have hlt : 37500 % d < d := Nat.mod_lt _ (by omega)
  rw [if_neg (by omega)]

/-- Above `MAX_SPEED` the loop does not run and the rounding step yields 1. -/
theorem speedOf_of_gt (d : Nat) (h : 37500 < d) : speedOf d = 1 := by
  unfold speedOf
  rw [if_neg (by omega), Nat.mod_eq_of_lt h, Nat.div_eq_of_lt h]
  simp

theorem speedOf_range (d : Nat) (h : 38 ≤ d) : 1 ≤ speedOf d ∧ speedOf d ≤ 986 := by
  by_cases h2 : d ≤ 37500
  · rw [speedOf_of_le d h h2]
    have hq : 1 ≤ 37500 / d := (Nat.one_le_div_iff (by omega)).2 h2
    have hu : 37500 / d < 987 := (Nat.div_lt_iff_lt_mul (by omega)).2 (by omega)
    omega
  · rw [speedOf_of_gt d (by omega)]
    omega

/-! Section: the speed calculator (C1, C2, C3) -/

/-- C1 (evaluation at the spec's scenario 2): the state with `capture = {60000, 1000}`,
`overflows = 1`, `captured = 2` is reached by a sensor edge at 60000, a wrap and a
sensor edge at 1000.  Its interval and its denominator are 6536, and
`calculateSpeed` returns 5, whereas the round-half-up rule of the spec gives 6:
the remainder 4820 is at least 6536/2 = 3268 but below `MAX_SPEED/2 = 18750`, the
bound the code compares it with. -/
theorem C1_round_half_up_scenario :
    run [Event.capture 60000, Event.overflow, Event.capture 1000] startState =
      some (pendingState 60000 1000 1) ∧
    specInterval (pendingState 60000 1000 1) = 6536 ∧
    denominatorOf (pendingState 60000 1000 1) = 6536 ∧
    calculateSpeed (pendingState 60000 1000 1) = some 5 ∧
    specRoundHalfUp MAX_SPEED 6536 = 6 := by
  refine ⟨by decide, by decide, by decide, ?_, by decide⟩
  rw [calculateSpeed_eq]
  decide

/-- C2 (counterexample): a sensor edge at 65535 followed by a sensor edge at 0 with
no wrap handled in between gives `capture = {65535, 0}`, `overflows = 0`.  The
signed Interval is -65535, which is at most `K/999 = 37`, yet `calculateSpeed`
returns 1 and not the error value -1: the unsigned subtraction wraps to
4294901761. -/
theorem C2_negative_interval_counterexample :
    run [Event.capture 65535, Event.capture 0] startState = some (pendingState 65535 0 0) ∧
    specInterval (pendingState 65535 0 0) = -65535 ∧
    specInterval (pendingState 65535 0 0) ≤ ((MAX_SPEED / 999 : Nat) : Int) ∧
    denominatorOf (pendingState 65535 0 0) = 4294901761 ∧
    calculateSpeed (pendingState 65535 0 0) = some 1 ∧
    calculateSpeed (pendingState 65535 0 0) ≠ some (-1) := by
  refine ⟨by decide, by decide, by decide, by decide, ?_, ?_⟩
  · rw [calculateSpeed_eq]; decide
  · rw [calculateSpeed_eq]; decide

/-- C2 (amended): for 16-bit timestamps and overflow count whose Interval
`t_second + overflowCount*65536 - t_first` is non-negative and at most
`K/999 = 37`, `calculateSpeed` returns the error value -1. -/
theorem C2_over_range_fast_error (s : State) (h0 : s.capture0 < 65536)
    (h1 : s.capture1 < 65536) (hov : s.overflows < 65536)
    (hnonneg : 0 ≤ specInterval s)
    (hsmall : specInterval s ≤ ((MAX_SPEED / 999 : Nat) : Int)) :
    calculateSpeed s = some (-1) := by
  unfold specInterval at hnonneg hsmall
  have hK : MAX_SPEED / 999 = 37 := by decide
  rw [hK] at hsmall
  have hd := denominatorOf_of_le s h0 h1 hov (by omega)
  rw [calculateSpeed_eq, speedOf, if_pos (by omega)]

/-- C2 witness: the spec's scenario 3, `capture = {0, 10}`, `overflows = 0`. -/
theorem C2_over_range_fast_error_witness :
    calculateSpeed (pendingState 0 10 0) = some (-1) :=
  C2_over_range_fast_error (pendingState 0 10 0) (by decide) (by decide) (by decide)
    (by decide) (by decide)

/-- C3: for 16-bit timestamps and overflow count whose Interval exceeds
`K/999 = 37`, `calculateSpeed` returns a value `r` with `0 ≤ r ≤ 999`; so `r` is
not the error value and fits the 16-bit signed result. -/
theorem C3_result_range (s : State) (h0 : s.capture0 < 65536)
    (h1 : s.capture1 < 65536) (hov : s.overflows < 65536)
    (hbig : ((MAX_SPEED / 999 : Nat) : Int) < specInterval s) :
    ∃ r : Int, calculateSpeed s = some r ∧ 0 ≤ r ∧ r ≤ 999 ∧ r ≠ -1 ∧ r < 32768 := by
  unfold specInterval at hbig
  have hK : MAX_SPEED / 999 = 37 := by decide
  rw [hK] at hbig
  have hd := denominatorOf_of_le s h0 h1 hov (by omega)
  have hr := speedOf_range (denominatorOf s) (by omega)
  exact ⟨speedOf (denominatorOf s), calculateSpeed_eq s, by omega, by omega, by omega, by omega⟩

/-- C3 witness: the spec's scenario 1, `capture = {0, 375}`, `overflows = 0`. -/
theorem C3_result_range_witness :
    ∃ r : Int, calculateSpeed (pendingState 0 375 0) = some r ∧ 0 ≤ r ∧ r ≤ 999 ∧
      r ≠ -1 ∧ r < 32768 :=
  C3_result_range (pendingState 0 375 0) (by decide) (by decide) (by decide) (by decide)

/-! Section: the capture state machine (C4) -/

theorem SETTEXT_eq (a b c : Nat) (s : State) :
    SETTEXT a b c s =
      { s with
        currentCode0 := segmentCodeAt a
        currentCode1 := segmentCodeAt b
        currentCode2 := segmentCodeAt c } :=
  setSegments_text (-1) (by decide) a b c s

/-- C4: the input-capture handler, for every state and every counter value `c`.
With `captured = 0` it sets `overflows` to 0, `capture[0]` to `c` and `captured`
to 1, leaving `capture[1]` (and everything else) unchanged; with `captured = 1`
it sets `capture[1]` to `c` and `captured` to 2, leaving `capture[0]`,
`overflows` (and everything else) unchanged. -/
theorem C4_sensor_edge_transitions (s : State) (c : Nat) :
    (s.captured = 0 →
      TIMER1_CAPT_vect c s = { s with overflows := 0, capture0 := c, captured := 1 }) ∧
    (s.captured = 1 →
      TIMER1_CAPT_vect c s = { s with capture1 := c, captured := 2 }) := by
  constructor
  · intro h
    simp [TIMER1_CAPT_vect, State.writeCapture, h]
  · intro h
    simp [TIMER1_CAPT_vect, State.writeCapture, h]

/-- C4 witness: two sensor edges after start-up, at counter values 60000 and 1000. -/
theorem C4_sensor_edge_transitions_witness :
    TIMER1_CAPT_vect 60000 startState =
      { startState with overflows := 0, capture0 := 60000, captured := 1 } ∧
    TIMER1_CAPT_vect 1000 { startState with capture0 := 60000, captured := 1 } =
      { startState with capture0 := 60000, capture1 := 1000, captured := 2 } :=
  ⟨(C4_sensor_edge_transitions startState 60000).1 rfl,
   (C4_sensor_edge_transitions { startState with capture0 := 60000, captured := 1 } 1000).2 rfl⟩

/-- The wrap handler on a state with `captured = 1`: `overflows` is incremented in
16-bit unsigned arithmetic, and `captured` is cleared when the new value exceeds
`MAX_OVERFLOWS`. -/
theorem TIMER1_OVF_vect_of_one (s : State) (h : s.captured = 1) :
    TIMER1_OVF_vect s =
      { s with
        overflows := (s.overflows + 1) % 65536
        captured := if MAX_OVERFLOWS < (s.overflows + 1) % 65536 then 0 else 1 } := by
  by_cases hov : MAX_OVERFLOWS < (s.overflows + 1) % 65536
  · simp [TIMER1_OVF_vect, h, hov]
  · simp [TIMER1_OVF_vect, h, hov]

/-! Section: lemmas on the main loop and on runs -/

theorem setSegments_captured (v : Int) (a b c : Nat) (s : State) :
    (setSegments v a b c s).captured = s.captured ∧
    (setSegments v a b c s).overflows = s.overflows ∧
    (setSegments v a b c s).capture0 = s.capture0 ∧
    (setSegments v a b c s).capture1 = s.capture1 := by
  unfold setSegments
  split <;> exact ⟨rfl, rfl, rfl, rfl⟩

theorem setSegments_overwrite (v : Int) (a b c a1 b1 c1 : Nat) (s : State) :
    setSegments v a b c (SETTEXT a1 b1 c1 s) = setSegments v a b c s := by
  rw [SETTEXT_eq]
  unfold setSegments
  split <;> rfl

theorem denominatorOf_congr (s t : State) (h0 : t.capture0 = s.capture0)
    (h1 : t.capture1 = s.capture1) (hov : t.overflows = s.overflows) :
    denominatorOf t = denominatorOf s := by
  simp only [denominatorOf, h0, h1, hov]

theorem calculateSpeed_congr (s t : State) (h0 : t.capture0 = s.capture0)
    (h1 : t.capture1 = s.capture1) (hov : t.overflows = s.overflows) :
    calculateSpeed t = calculateSpeed s := by
  rw [calculateSpeed_eq, calculateSpeed_eq, denominatorOf_congr s t h0 h1 hov]

theorem SETTEXT_captured (a b c : Nat) (s : State) :
    (SETTEXT a b c s).captured = s.captured := by
  rw [SETTEXT_eq]

theorem SETTEXT_denominatorOf (a b c : Nat) (s : State) :
    denominatorOf (SETTEXT a b c s) = denominatorOf s := by
  rw [SETTEXT_eq]; rfl

theorem SETTEXT_overwrite (a b c a1 b1 c1 : Nat) (s : State) :
    SETTEXT a b c (SETTEXT a1 b1 c1 s) = SETTEXT a b c s := by
  rw [SETTEXT_eq, SETTEXT_eq, SETTEXT_eq]

/-- The main-loop iteration on a pending result. -/
theorem mainLoop_of_two (s : State) (h : s.captured = 2) :
    mainLoop s =
      some { SETNUM (speedOf (denominatorOf s)) s with overflows := 0, captured := 0 } := by
  unfold mainLoop
  dsimp only
  by_cases hov : MAX_OVERFLOWS < s.overflows
  · have hc : (SETTEXT LETTER_L 0 SEG_OFF s).captured = 2 := (SETTEXT_captured _ _ _ s).trans h
    rw [if_pos hov,
      if_neg (show ¬ (SETTEXT LETTER_L 0 SEG_OFF s).captured = 1 by rw [hc]; decide),
      if_pos hc, calculateSpeed_eq, SETTEXT_denominatorOf]
    simp only [SETNUM, setSegments_overwrite]
  · rw [if_neg hov, if_neg (show ¬ s.captured = 1 by rw [h]; decide), if_pos h,
      calculateSpeed_eq]

/-- The main-loop iteration when no result is pending. -/
theorem mainLoop_of_ne_two (s : State) (h : s.captured ≠ 2) :
    mainLoop s =
      some (if s.captured = 1 then SETTEXT SYM_DASH SYM_DASH SYM_DASH s
            else if MAX_OVERFLOWS < s.overflows then SETTEXT LETTER_L 0 SEG_OFF s else s) := by
  unfold mainLoop
  dsimp only
  by_cases hov : MAX_OVERFLOWS < s.overflows
  · have hc : (SETTEXT LETTER_L 0 SEG_OFF s).captured = s.captured := SETTEXT_captured _ _ _ s
    by_cases h1 : s.captured = 1
    · rw [if_pos hov, if_pos (hc.trans h1),
        if_neg (show ¬ (SETTEXT SYM_DASH SYM_DASH SYM_DASH
          (SETTEXT LETTER_L 0 SEG_OFF s)).captured = 2 by
            rw [SETTEXT_captured, SETTEXT_captured]; exact h),
        if_pos h1, SETTEXT_overwrite]
    · rw [if_pos hov, if_neg (show ¬ (SETTEXT LETTER_L 0 SEG_OFF s).captured = 1 by
          rw [hc]; exact h1),
        if_neg (show ¬ (SETTEXT LETTER_L 0 SEG_OFF s).captured = 2 by rw [hc]; exact h),
        if_neg h1]
  · by_cases h1 : s.captured = 1
    · rw [if_neg hov, if_pos h1,
        if_neg (show ¬ (SETTEXT SYM_DASH SYM_DASH SYM_DASH s).captured = 2 by
          rw [SETTEXT_captured]; exact h)]
    · rw [if_neg hov, if_neg h1, if_neg h]

/-- The main-loop iteration always returns; its effect on the capture variables. -/
theorem mainLoop_capture (s : State) :
    ∃ t, mainLoop s = some t ∧ t.capture0 = s.capture0 ∧ t.capture1 = s.capture1 ∧
      ((s.captured = 2 ∧ t.captured = 0 ∧ t.overflows = 0) ∨
       (s.captured ≠ 2 ∧ t.captured = s.captured ∧ t.overflows = s.overflows)) := by
  by_cases h : s.captured = 2
  · refine ⟨_, mainLoop_of_two s h, ?_, ?_, Or.inl ⟨h, rfl, rfl⟩⟩
    · exact (setSegments_captured _ _ _ _ s).2.2.1
    · exact (setSegments_captured _ _ _ _ s).2.2.2
  · refine ⟨_, mainLoop_of_ne_two s h, ?_, ?_, Or.inr ⟨h, ?_, ?_⟩⟩ <;>
      (split_ifs <;> simp [SETTEXT_eq])

/-- Every step returns a state. -/
theorem step_total (e : Event) (s : State) : ∃ t, step e s = some t := by
  cases e with
  | capture c => exact ⟨_, rfl⟩
  | overflow => exact ⟨_, rfl⟩
  | refresh => exact ⟨_, rfl⟩
  | mainIteration =>
    obtain ⟨t, ht, _⟩ := mainLoop_capture s
    exact ⟨t, ht⟩

/-- Every step preserves the invariant of the capture state machine. -/
theorem step_invariant (e : Event) (s t : State) (hs : CaptureInvariant s)
    (h : step e s = some t) : CaptureInvariant t := by
  obtain ⟨h2, hov, himp⟩ := hs
  have hM : MAX_OVERFLOWS = 1 := by decide
  rw [hM] at hov himp
  unfold CaptureInvariant
  rw [hM]
  cases e with
  | capture c =>
    simp only [step, Option.some.injEq] at h
    subst h
    unfold TIMER1_CAPT_vect
    by_cases hc0 : s.captured = 0
    · simp [hc0, State.writeCapture]
    · by_cases hc1 : s.captured = 1
      · have := fun hh => hc0 (himp hh)
        simp [hc1, State.writeCapture]
        omega
      · have hc2 : ¬ s.captured < 2 := by omega
        simp only [hc2, if_false]
        exact ⟨h2, hov, himp⟩
  | overflow =>
    simp only [step, Option.some.injEq] at h
    subst h
    unfold TIMER1_OVF_vect
    by_cases hc1 : s.captured = 1
    · have hle : s.overflows ≤ 1 := by
        by_contra hcon
        have := himp (by omega)
        omega
      have hm : (s.overflows + 1) % 65536 = s.overflows + 1 := Nat.mod_eq_of_lt (by omega)
      rw [if_pos hc1]
      dsimp only
      rw [hm, hM]
      by_cases hgt : 1 < s.overflows + 1
      · rw [if_pos hgt]
        exact ⟨Nat.zero_le _, by show s.overflows + 1 ≤ 1 + 1; omega, fun _ => rfl⟩
      · rw [if_neg hgt]
        exact ⟨by show s.captured ≤ 2; omega, by show s.overflows + 1 ≤ 1 + 1; omega,
          fun hh => absurd hh hgt⟩
    · rw [if_neg hc1]
      exact ⟨h2, hov, himp⟩
  | refresh =>
    simp only [step, Option.some.injEq] at h
    subst h
    unfold TIMER2_COMP_vect
    dsimp only
    split <;> exact ⟨h2, hov, himp⟩
  | mainIteration =>
    obtain ⟨u, hu, _, _, hcase⟩ := mainLoop_capture s
    simp only [step] at h
    rw [hu] at h
    cases h
    rcases hcase with ⟨_, hc, ho⟩ | ⟨_, hc, ho⟩
    · rw [hc, ho]
      exact ⟨by omega, by omega, fun _ => rfl⟩
    · rw [hc, ho]
      exact ⟨h2, hov, himp⟩

theorem startState_invariant : CaptureInvariant startState := by
  unfold CaptureInvariant
  decide

/-- Every run returns a state, and it preserves the invariant. -/
theorem run_invariant (evs : List Event) : ∀ s : State, CaptureInvariant s →
    ∃ t, run evs s = some t ∧ CaptureInvariant t := by
  induction evs with
  | nil => intro s hs; exact ⟨s, rfl, hs⟩
  | cons e es ih =>
    intro s hs
    obtain ⟨u, hu⟩ := step_total e s
    obtain ⟨t, ht, hinv⟩ := ih u (step_invariant e s u hs hu)
    exact ⟨t, by simp [run, hu, ht], hinv⟩

/-- A handler invocation in a state with `captured = 2` leaves the four capture
variables as they are. -/
theorem step_pending (e : Event) (s : State) (h : s.captured = 2)
    (he : e ≠ Event.mainIteration) :
    ∃ t, step e s = some t ∧ t.captured = s.captured ∧ t.overflows = s.overflows ∧
      t.capture0 = s.capture0 ∧ t.capture1 = s.capture1 := by
  cases e with
  | capture c =>
    refine ⟨_, rfl, ?_⟩
    have hlt : ¬ s.captured < 2 := by omega
    simp only [TIMER1_CAPT_vect, if_neg hlt, and_self]
  | overflow =>
    refine ⟨_, rfl, ?_⟩
    have hne : ¬ s.captured = 1 := by omega
    simp only [TIMER1_OVF_vect, if_neg hne, and_self]
  | refresh =>
    refine ⟨_, rfl, ?_⟩
    unfold TIMER2_COMP_vect
    dsimp only
    split <;> exact ⟨rfl, rfl, rfl, rfl⟩
  | mainIteration => exact absurd rfl he

/-! Section: wrap handling (C5) -/

/-- C5: `MAX_OVERFLOWS` is 1.  In every state reachable from start-up with
`captured = 1` the wrap handler increments `overflows` by exactly 1, sets `captured`
to 0 exactly when the incremented `overflows` exceeds `MAX_OVERFLOWS` and otherwise
leaves it 1, and changes nothing else (`capture[0]` and `capture[1]` included).  In
every state with `captured ≠ 1` the handler changes nothing. -/
theorem C5_wrap_handling (evs : List Event) (s : State)
    (hreach : run evs startState = some s) :
    MAX_OVERFLOWS = 1 ∧
    (s.captured = 1 →
      TIMER1_OVF_vect s =
        { s with
          overflows := s.overflows + 1
          captured := if MAX_OVERFLOWS < s.overflows + 1 then 0 else 1 }) ∧
    (∀ t : State, t.captured ≠ 1 → TIMER1_OVF_vect t = t) := by
  obtain ⟨s2, hs2, hinv⟩ := run_invariant evs startState startState_invariant
  rw [hreach] at hs2
  cases hs2
  obtain ⟨_, _, himp⟩ := hinv
  have hM : MAX_OVERFLOWS = 1 := by decide
  refine ⟨hM, ?_, ?_⟩
  · intro h
    have hle : s.overflows ≤ 1 := by
      by_contra hcon
      have := himp (by omega)
      omega
    have hm : (s.overflows + 1) % 65536 = s.overflows + 1 := Nat.mod_eq_of_lt (by omega)
    rw [TIMER1_OVF_vect_of_one s h, hm]
  · intro t h
    simp [TIMER1_OVF_vect, h]

/-- C5 witness: after the first sensor edge, one wrap gives `overflows = 1` with
`captured` still 1, the next wrap gives `overflows = 2` and `captured = 0`; with
`captured = 2` the handler does nothing. -/
theorem C5_wrap_handling_witness :
    TIMER1_OVF_vect { startState with captured := 1 } =
      { startState with captured := 1, overflows := 1 } ∧
    TIMER1_OVF_vect { startState with captured := 1, overflows := 1 } =
      { startState with captured := 0, overflows := 2 } ∧
    TIMER1_OVF_vect (pendingState 60000 1000 1) = pendingState 60000 1000 1 :=
  ⟨(C5_wrap_handling [Event.capture 0] { startState with captured := 1 }
      (by decide)).2.1 rfl,
   (C5_wrap_handling [Event.capture 0, Event.overflow]
      { startState with captured := 1, overflows := 1 } (by decide)).2.1 rfl,
   (C5_wrap_handling [] startState (by decide)).2.2 (pendingState 60000 1000 1) (by decide)⟩

/-! Section: dropped triggers, cycle completion, bounds (C6, C7, C8, C9) -/

/-- C6: from a state with `captured = 2`, every finite sequence of handler
invocations (sensor edges with arbitrary counter values and wraps; display refresh
ticks are allowed as well), with no main-loop iteration among them, returns a
state in which `captured`, `overflows`, `capture[0]` and `capture[1]` are
unchanged, so `calculateSpeed` returns the same value as before the events. -/
theorem C6_dropped_triggers (evs : List Event) (s : State) (h : s.captured = 2)
    (hev : ∀ e ∈ evs, e ≠ Event.mainIteration) :
    ∃ t, run evs s = some t ∧ t.captured = s.captured ∧ t.overflows = s.overflows ∧
      t.capture0 = s.capture0 ∧ t.capture1 = s.capture1 ∧
      calculateSpeed t = calculateSpeed s := by
  induction evs generalizing s with
  | nil => exact ⟨s, rfl, rfl, rfl, rfl, rfl, rfl⟩
  | cons e es ih =>
    obtain ⟨u, hu, hc, ho, h0, h1⟩ := step_pending e s h (hev e (List.mem_cons_self e es))
    obtain ⟨t, ht, tc, tov, t0, t1, _⟩ :=
      ih u (hc.trans h) (fun x hx => hev x (List.mem_cons_of_mem e hx))
    refine ⟨t, by simp [run, hu, ht], tc.trans hc, tov.trans ho, t0.trans h0, t1.trans h1, ?_⟩
    exact calculateSpeed_congr s t (t0.trans h0) (t1.trans h1) (tov.trans ho)

/-- C6 witness: the spec's scenario 5, with `capture = {60000, 1000}`,
`overflows = 1` pending and then a third edge, a wrap and a fourth edge. -/
theorem C6_dropped_triggers_witness :
    ∃ t, run [Event.capture 7, Event.overflow, Event.capture 9] (pendingState 60000 1000 1)
        = some t ∧
      t.captured = 2 ∧ t.overflows = 1 ∧ t.capture0 = 60000 ∧ t.capture1 = 1000 ∧
      calculateSpeed t = calculateSpeed (pendingState 60000 1000 1) :=
  C6_dropped_triggers [Event.capture 7, Event.overflow, Event.capture 9]
    (pendingState 60000 1000 1) rfl (by decide)

/-- C7 (counterexample): after a sensor edge and one wrap the state has
`captured = 1`; the next wrap-handler invocation aborts the cycle (the incremented
`overflows` exceeds `MAX_OVERFLOWS`, `captured` becomes 0) and leaves
`overflows = 2`, not 0. -/
theorem C7_abort_keeps_overflows_counterexample :
    ∃ s, run [Event.capture 0, Event.overflow] startState = some s ∧
      s.captured = 1 ∧
      MAX_OVERFLOWS < (TIMER1_OVF_vect s).overflows ∧
      (TIMER1_OVF_vect s).captured = 0 ∧
      (TIMER1_OVF_vect s).overflows = 2 ∧
      ¬ ((TIMER1_OVF_vect s).captured = 0 ∧ (TIMER1_OVF_vect s).overflows = 0) :=
  ⟨_, rfl, by decide, by decide, by decide, by decide, by decide⟩

/-- C7 (amended): in every state reachable from start-up, the main-loop iteration
that consumes `captured = 2` returns with `captured = 0` and `overflows = 0`; the
wrap-handler invocation that aborts the cycle (from `captured = 1` to
`captured = 0`) leaves `overflows = MAX_OVERFLOWS + 1`, which the abort does not
reset. -/
theorem C7_cycle_completion (evs : List Event) (s : State)
    (hreach : run evs startState = some s) :
    (s.captured = 2 → ∃ t, mainLoop s = some t ∧ t.captured = 0 ∧ t.overflows = 0) ∧
    (s.captured = 1 → (TIMER1_OVF_vect s).captured = 0 →
      (TIMER1_OVF_vect s).overflows = MAX_OVERFLOWS + 1) := by
  obtain ⟨s2, hs2, hinv⟩ := run_invariant evs startState startState_invariant
  rw [hreach] at hs2
  cases hs2
  obtain ⟨_, hov, himp⟩ := hinv
  have hM : MAX_OVERFLOWS = 1 := by decide
  rw [hM] at hov himp
  constructor
  · intro h
    exact ⟨_, mainLoop_of_two s h, rfl, rfl⟩
  · intro h1
    have hle : s.overflows ≤ 1 := by
      by_contra hcon
      have := himp (by omega)
      omega
    have hm : (s.overflows + 1) % 65536 = s.overflows + 1 := Nat.mod_eq_of_lt (by omega)
    unfold TIMER1_OVF_vect
    rw [if_pos h1]
    dsimp only
    rw [hm, hM]
    by_cases hgt : 1 < s.overflows + 1
    · rw [if_pos hgt]
      intro _
      show s.overflows + 1 = 1 + 1
      omega
    · rw [if_neg hgt]
      intro hc
      have hc2 : s.captured = 0 := hc
      omega

/-- C7 witness: two sensor edges reach `captured = 2`, which the main loop consumes;
a sensor edge and a wrap reach `captured = 1`, where the next wrap aborts. -/
theorem C7_cycle_completion_witness :
    (∃ t, mainLoop (pendingState 60000 1000 0) = some t ∧ t.captured = 0 ∧ t.overflows = 0) ∧
    (TIMER1_OVF_vect { startState with captured := 1, overflows := 1 }).overflows =
      MAX_OVERFLOWS + 1 :=
  ⟨(C7_cycle_completion [Event.capture 60000, Event.capture 1000]
      (pendingState 60000 1000 0) (by decide)).1 rfl,
   (C7_cycle_completion [Event.capture 0, Event.overflow]
      { startState with captured := 1, overflows := 1 } (by decide)).2 rfl (by decide)⟩

/-- C8: every finite sequence of sensor edges (with arbitrary counter values), wraps,
display refresh ticks and main-loop iterations, run from start-up, returns a state
in which `captured` is 0, 1 or 2; and when it is 2 the input-capture handler
changes nothing, so `capture[captured]` is written only at index 0 or 1. -/
theorem C8_capture_count_bound (evs : List Event) :
    ∃ s, run evs startState = some s ∧
      (s.captured = 0 ∨ s.captured = 1 ∨ s.captured = 2) ∧
      (∀ c, s.captured < 2 ∨ TIMER1_CAPT_vect c s = s) := by
  obtain ⟨s, hs, h2, _, _⟩ := run_invariant evs startState startState_invariant
  refine ⟨s, hs, by omega, fun c => ?_⟩
  by_cases hlt : s.captured < 2
  · exact Or.inl hlt
  · exact Or.inr (by simp only [TIMER1_CAPT_vect, if_neg hlt])

/-- C9: for every state and every single step (sensor-edge handler, wrap handler,
refresh tick or main-loop iteration) the step returns, and the new value of
`captured` is at least the old one, unless the step is a main-loop iteration that
found `captured = 2` or a wrap-handler invocation at `captured = 1` whose
incremented `overflows` exceeds `MAX_OVERFLOWS`; both of these set `captured` to 0.
The sensor-edge handler never decreases `captured`. -/
theorem C9_captured_monotone (e : Event) (s : State) :
    (∃ t, step e s = some t ∧
      (s.captured ≤ t.captured ∨
       (e = Event.mainIteration ∧ s.captured = 2 ∧ t.captured = 0) ∨
       (e = Event.overflow ∧ s.captured = 1 ∧ t.overflows = (s.overflows + 1) % 65536 ∧
          MAX_OVERFLOWS < t.overflows ∧ t.captured = 0))) ∧
    (∀ c, s.captured ≤ (TIMER1_CAPT_vect c s).captured) := by
  have hcapt : ∀ c, s.captured ≤ (TIMER1_CAPT_vect c s).captured := by
    intro c
    unfold TIMER1_CAPT_vect
    by_cases hlt : s.captured < 2
    · rw [if_pos hlt]
      have hm : (s.captured + 1) % 65536 = s.captured + 1 := Nat.mod_eq_of_lt (by omega)
      by_cases h0 : s.captured = 0
      · simp [h0, State.writeCapture]
      · have h1 : s.captured = 1 := by omega
        simp [h1, State.writeCapture]
    · rw [if_neg hlt]
  refine ⟨?_, hcapt⟩
  cases e with
  | capture c => exact ⟨_, rfl, Or.inl (hcapt c)⟩
  | overflow =>
    refine ⟨_, rfl, ?_⟩
    unfold TIMER1_OVF_vect
    by_cases h1 : s.captured = 1
    · rw [if_pos h1]
      dsimp only
      by_cases hgt : MAX_OVERFLOWS < (s.overflows + 1) % 65536
      · rw [if_pos hgt]
        exact Or.inr (Or.inr ⟨rfl, h1, rfl, hgt, rfl⟩)
      · rw [if_neg hgt]
        exact Or.inl (Nat.le_refl _)
    · rw [if_neg h1]
      exact Or.inl (Nat.le_refl _)
  | refresh =>
    refine ⟨_, rfl, Or.inl ?_⟩
    unfold TIMER2_COMP_vect
    dsimp only
    split <;> exact Nat.le_refl _
  | mainIteration =>
    obtain ⟨t, ht, _, _, hcase⟩ := mainLoop_capture s
    refine ⟨t, ht, ?_⟩
    rcases hcase with ⟨h2, hc, _⟩ | ⟨_, hc, _⟩
    · exact Or.inr (Or.inl ⟨rfl, h2, hc⟩)
    · exact Or.inl (by rw [hc])

/-! Section: consumption of a pending result (C10) -/

/-- C10: for every state with `captured = 2`, `calculateSpeed` returns a value `v`
that is -1 or lies in 0..999, and one main-loop iteration returns the state in
which `currentCode` holds the glyphs of the hundreds, tens and ones digits of `v`
when `v ≥ 0`, and `segmentCode[LETTER_E]`, `segmentCode[0]`, `segmentCode[1]` when
`v = -1`, with `overflows = 0`, `captured = 0` and every other variable unchanged. -/
theorem C10_main_loop_consumption (s : State) (h : s.captured = 2) :
    ∃ v : Int, calculateSpeed s = some v ∧ (v = -1 ∨ (0 ≤ v ∧ v ≤ 999)) ∧
      mainLoop s = some
        { s with
          currentCode0 :=
            if v = -1 then segmentCodeAt LETTER_E else segmentCodeAt (v.toNat / 100)
          currentCode1 :=
            if v = -1 then segmentCodeAt 0 else segmentCodeAt (v.toNat / 10 % 10)
          currentCode2 :=
            if v = -1 then segmentCodeAt 1 else segmentCodeAt (v.toNat % 10)
          overflows := 0
          captured := 0 } := by
  refine ⟨speedOf (denominatorOf s), calculateSpeed_eq s, ?_, ?_⟩
  · by_cases hd : denominatorOf s ≤ 37
    · left
      unfold speedOf
      rw [if_pos hd]
    · right
      have := speedOf_range (denominatorOf s) (by omega)
      omega
  · rw [mainLoop_of_two s h]
    by_cases hd : denominatorOf s ≤ 37
    · have hv : speedOf (denominatorOf s) = -1 := by
        unfold speedOf
        rw [if_pos hd]
      rw [hv, SETNUM, setSegments_text (-1) (by decide)]
      simp
    · have hr := speedOf_range (denominatorOf s) (by omega)
      have hne : speedOf (denominatorOf s) ≠ -1 := by omega
      have hcast : ((speedOf (denominatorOf s)).toNat : Int) = speedOf (denominatorOf s) :=
        Int.toNat_of_nonneg (by omega)
      have hset := setSegments_number (speedOf (denominatorOf s)).toNat (by omega)
        LETTER_E 0 1 s
      rw [hcast] at hset
      rw [SETNUM, hset]
      simp [hne]

/-- C10 witness: the spec's scenarios 1 and 3.  With `capture = {0, 375}`,
`overflows = 0` the iteration displays the glyphs of 1, 0, 0; with
`capture = {0, 10}`, `overflows = 0` it displays E, 0, 1. -/
theorem C10_main_loop_consumption_witness :
    mainLoop (pendingState 0 375 0) = some
      { pendingState 0 375 0 with
        currentCode0 := segmentCodeAt 1
        currentCode1 := segmentCodeAt 0
        currentCode2 := segmentCodeAt 0
        overflows := 0
        captured := 0 } ∧
    mainLoop (pendingState 0 10 0) = some
      { pendingState 0 10 0 with
        currentCode0 := segmentCodeAt LETTER_E
        currentCode1 := segmentCodeAt 0
        currentCode2 := segmentCodeAt 1
        overflows := 0
        captured := 0 } := by
  constructor
  · obtain ⟨v, hv, _, hm⟩ := C10_main_loop_consumption (pendingState 0 375 0) rfl
    have hv2 : calculateSpeed (pendingState 0 375 0) = some 100 := by
      rw [calculateSpeed_eq]; decide
    have hv3 : v = 100 := by
      rw [hv2] at hv
      exact (Option.some.inj hv).symm
    subst hv3
    rw [hm]
    decide
  · obtain ⟨v, hv, _, hm⟩ := C10_main_loop_consumption (pendingState 0 10 0) rfl
    have hv2 : calculateSpeed (pendingState 0 10 0) = some (-1) := by
      rw [calculateSpeed_eq]; decide
    have hv3 : v = -1 := by
      rw [hv2] at hv
      exact (Option.some.inj hv).symm
    subst hv3
    rw [hm]
    decide

/-! Section: the over-range-slow scenario and the digit decomposition (C11, C12) -/

/-- The input-capture handler on a state with `captured = 0`. -/
theorem TIMER1_CAPT_vect_of_zero (c : Nat) (s : State) (h : s.captured = 0) :
    TIMER1_CAPT_vect c s = { s with overflows := 0, capture0 := c, captured := 1 } := by
  simp [TIMER1_CAPT_vect, State.writeCapture, h]

/-- C11: for every state with `captured = 0` and every counter value `c`, a sensor
edge followed by `MAX_OVERFLOWS + 1 = 2` wraps leaves `captured = 0` (with
`capture[0] = c` and `overflows = 2`), and a following main-loop iteration sets
`currentCode` to `segmentCode[LETTER_L]`, `segmentCode[0]`, `segmentCode[SEG_OFF]`
and leaves `captured = 0`. -/
theorem C11_over_range_slow (s : State) (c : Nat) (h : s.captured = 0) :
    MAX_OVERFLOWS + 1 = 2 ∧
    run [Event.capture c, Event.overflow, Event.overflow] s =
      some { s with capture0 := c, overflows := 2, captured := 0 } ∧
    run [Event.capture c, Event.overflow, Event.overflow, Event.mainIteration] s =
      some { s with
        capture0 := c
        overflows := 2
        captured := 0
        currentCode0 := segmentCodeAt LETTER_L
        currentCode1 := segmentCodeAt 0
        currentCode2 := segmentCodeAt SEG_OFF } := by
  have h1 : TIMER1_OVF_vect (TIMER1_CAPT_vect c s) =
      { s with overflows := 1, capture0 := c, captured := 1 } := by
    rw [TIMER1_CAPT_vect_of_zero c s h]
    simp [TIMER1_OVF_vect, MAX_OVERFLOWS, MAX_SPEED]
  have h2 : TIMER1_OVF_vect (TIMER1_OVF_vect (TIMER1_CAPT_vect c s)) =
      { s with capture0 := c, overflows := 2, captured := 0 } := by
    rw [h1]
    simp [TIMER1_OVF_vect, MAX_OVERFLOWS, MAX_SPEED]
  have h3 : mainLoop { s with capture0 := c, overflows := 2, captured := 0 } =
      some { s with
        capture0 := c
        overflows := 2
        captured := 0
        currentCode0 := segmentCodeAt LETTER_L
        currentCode1 := segmentCodeAt 0
        currentCode2 := segmentCodeAt SEG_OFF } := by
    rw [mainLoop_of_ne_two { s with capture0 := c, overflows := 2, captured := 0 }
      (show (0 : Nat) ≠ 2 by decide)]
    have hov : MAX_OVERFLOWS < 2 := by decide
    simp [hov, SETTEXT_eq]
  refine ⟨by decide, ?_, ?_⟩
  · simp [run, step, h2]
  · simp [run, step, h2, h3]

/-- C11 witness: the spec's scenario 4 from start-up, with the first edge at 1234. -/
theorem C11_over_range_slow_witness :
    run [Event.capture 1234, Event.overflow, Event.overflow, Event.mainIteration] startState =
      some { startState with
        capture0 := 1234
        overflows := 2
        captured := 0
        currentCode0 := segmentCodeAt LETTER_L
        currentCode1 := segmentCodeAt 0
        currentCode2 := segmentCodeAt SEG_OFF } :=
  (C11_over_range_slow startState 1234 rfl).2.2

/-- C12: for every `n` in 0..999, `setSegments(n, ...)` (in particular `SETNUM(n)`)
sets `currentCode[0] = segmentCode[n / 100]`, `currentCode[1] = segmentCode[(n / 10) mod 10]`
and `currentCode[2] = segmentCode[n mod 10]` and changes nothing else (neither
`currentSegment` nor the capture variables nor the ports); the three table indices
are the values the loops leave in `digit` and `num`, and each lies in 0..9. -/
theorem C12_digit_decomposition (n : Nat) (hn : n ≤ 999) (a b c : Nat) (s : State) :
    setSegments (n : Int) a b c s =
      { s with
        currentCode0 := segmentCodeAt (n / 100)
        currentCode1 := segmentCodeAt (n / 10 % 10)
        currentCode2 := segmentCodeAt (n % 10) } ∧
    SETNUM (n : Int) s =
      { s with
        currentCode0 := segmentCodeAt (n / 100)
        currentCode1 := segmentCodeAt (n / 10 % 10)
        currentCode2 := segmentCodeAt (n % 10) } ∧
    reduceThousands (n : Int) = n ∧
    (hundredsLoop (n : Int) 0).2 = n / 100 ∧
    (tensLoop (hundredsLoop (n : Int) 0).1 0).2 = n / 10 % 10 ∧
    (tensLoop (hundredsLoop (n : Int) 0).1 0).1.toNat = n % 10 ∧
    n / 100 ≤ 9 ∧ n / 10 % 10 ≤ 9 ∧ n % 10 ≤ 9 := by
  have hh := hundredsLoop_eq 10 (n : Int) 0 (by omega) (by omega) (by omega)
  have ht := tensLoop_eq 10 ((n : Int) % 100) 0 (by omega) (by omega) (by omega)
  refine ⟨setSegments_number n hn a b c s, setSegments_number n hn _ _ _ s,
    reduceThousands_of_le _ (by omega), ?_, ?_, ?_, by omega, by omega, by omega⟩
  · rw [hh]
    show 0 + ((n : Int) / 100).toNat = n / 100
    omega
  · rw [hh]
    show (tensLoop ((n : Int) % 100) 0).2 = n / 10 % 10
    rw [ht]
    show 0 + ((n : Int) % 100 / 10).toNat = n / 10 % 10
    omega
  · rw [hh]
    show (tensLoop ((n : Int) % 100) 0).1.toNat = n % 10
    rw [ht]
    show ((n : Int) % 100 % 10).toNat = n % 10
    omega

/-- C12 witness: `n = 986`, the largest speed `calculateSpeed` returns, displayed
from the start-up state as 9, 8, 6. -/
theorem C12_digit_decomposition_witness :
    SETNUM 986 startState =
      { startState with
        currentCode0 := segmentCodeAt 9
        currentCode1 := segmentCodeAt 8
        currentCode2 := segmentCodeAt 6 } :=
  (C12_digit_decomposition 986 (by decide) LETTER_E 0 1 startState).2.1

/-! Section: the display refresh (C13, C14) -/

theorem tick_frame (s : State) :
    (TIMER2_COMP_vect s).currentCode0 = s.currentCode0 ∧
    (TIMER2_COMP_vect s).currentCode1 = s.currentCode1 ∧
    (TIMER2_COMP_vect s).currentCode2 = s.currentCode2 ∧
    (TIMER2_COMP_vect s).overflows = s.overflows ∧
    (TIMER2_COMP_vect s).captured = s.captured ∧
    (TIMER2_COMP_vect s).capture0 = s.capture0 ∧
    (TIMER2_COMP_vect s).capture1 = s.capture1 := by
  unfold TIMER2_COMP_vect
  dsimp only
  split <;> exact ⟨rfl, rfl, rfl, rfl, rfl, rfl, rfl⟩

theorem tick_ports (s : State) :
    (TIMER2_COMP_vect s).PORTD = s.readCurrentCode s.currentSegment ∧
    (TIMER2_COMP_vect s).PORTB =
      (s.PORTB ||| 14) &&& ((65535 - (1 <<< (s.currentSegment + 1)) % 65536) % 256) ∧
    (TIMER2_COMP_vect s).TCNT2 = 0 := by
  unfold TIMER2_COMP_vect
  dsimp only
  split <;> exact ⟨rfl, rfl, rfl⟩

theorem tick_currentSegment (s : State) (hp : s.currentSegment ≤ 2) :
    (TIMER2_COMP_vect s).currentSegment = (s.currentSegment + 1) % 3 := by
  unfold TIMER2_COMP_vect
  dsimp only
  by_cases h : s.currentSegment = 2
  · rw [if_pos h, h]
  · rw [if_neg h]
    show (s.currentSegment + 1) % 256 = (s.currentSegment + 1) % 3
    omega

theorem ticks_currentSegment (n : Nat) : ∀ s : State, s.currentSegment ≤ 2 →
    (TIMER2_COMP_vect^[n] s).currentSegment = (s.currentSegment + n) % 3 := by
  induction n with
  | zero => intro s hp; show s.currentSegment = (s.currentSegment + 0) % 3; omega
  | succ k ih =>
    intro s hp
    rw [Function.iterate_succ_apply, ih (TIMER2_COMP_vect s) (by rw [tick_currentSegment s hp]; omega),
      tick_currentSegment s hp]
    omega

theorem select_bits (b p i : Nat) (hb : b < 256) (hp : p ≤ 2) :
    ((b ||| 14) &&& ((65535 - (1 <<< (p + 1)) % 65536) % 256)).testBit i =
      if i = p + 1 then false else if 1 ≤ i ∧ i ≤ 3 then true else b.testBit i := by
  rw [Nat.testBit_and, Nat.testBit_or]
  by_cases hi : i < 8
  · interval_cases p <;> interval_cases i <;>
      (generalize b.testBit _ = x; revert x; decide)
  · have h1 : b.testBit i = false :=
      Nat.testBit_lt_two_pow (Nat.lt_of_lt_of_le hb (by
        calc 256 = 2 ^ 8 := by norm_num
          _ ≤ 2 ^ i := Nat.pow_le_pow_right (by norm_num) (by omega)))
    have h2 : ((65535 - (1 <<< (p + 1)) % 65536) % 256).testBit i = false :=
      Nat.testBit_lt_two_pow (Nat.lt_of_lt_of_le (Nat.mod_lt _ (by norm_num)) (by
        calc 256 = 2 ^ 8 := by norm_num
          _ ≤ 2 ^ i := Nat.pow_le_pow_right (by norm_num) (by omega)))
    rw [h1, h2, if_neg (by omega), if_neg (by omega)]
    simp

theorem clear_bit (b p i : Nat) (hb : b < 256) (hp : p ≤ 2) :
    ((b ||| 14) &&& ((65535 - (1 <<< (p + 1)) % 65536) % 256)).testBit i =
      if i = p + 1 then false else (b ||| 14).testBit i := by
  rw [Nat.testBit_and, Nat.testBit_or]
  by_cases hi : i < 8
  · interval_cases p <;> interval_cases i <;>
      (generalize b.testBit _ = x; revert x; decide)
  · have hpow : 256 ≤ 2 ^ i := by
      calc 256 = 2 ^ 8 := by norm_num
        _ ≤ 2 ^ i := Nat.pow_le_pow_right (by norm_num) (by omega)
    have h1 : b.testBit i = false := Nat.testBit_lt_two_pow (Nat.lt_of_lt_of_le hb hpow)
    have h2 : ((65535 - (1 <<< (p + 1)) % 65536) % 256).testBit i = false :=
      Nat.testBit_lt_two_pow (Nat.lt_of_lt_of_le (Nat.mod_lt _ (by norm_num)) hpow)
    have h3 : Nat.testBit 14 i = false :=
      Nat.testBit_lt_two_pow (Nat.lt_of_lt_of_le (by norm_num) hpow)
    rw [h1, h2, h3, if_neg (by omega)]
    rfl

/-- C13: for every state with `currentSegment = p` in {0,1,2} and every 8-bit PORTB
value, one refresh tick outputs `PORTD = currentCode[p]`; leaves PORTB equal to
the old value OR `0b00001110` with only bit `p+1` cleared, so that of the select
bits 1..3 exactly bit `p+1` is low, the other two are high and the remaining bits
are unchanged; sets `currentSegment` to `(p + 1) mod 3`; and leaves `currentCode`
unchanged.  Hence after `n` ticks `currentSegment` is `(p + n) mod 3`: it stays in
{0,1,2} and is back at `p` after three ticks, not after one or two. -/
theorem C13_refresh_tick (s : State) (hp : s.currentSegment ≤ 2) (hb : s.PORTB < 256) :
    (TIMER2_COMP_vect s).PORTD = s.readCurrentCode s.currentSegment ∧
    (s.currentSegment = 0 → (TIMER2_COMP_vect s).PORTD = s.currentCode0) ∧
    (s.currentSegment = 1 → (TIMER2_COMP_vect s).PORTD = s.currentCode1) ∧
    (s.currentSegment = 2 → (TIMER2_COMP_vect s).PORTD = s.currentCode2) ∧
    (∀ i, (TIMER2_COMP_vect s).PORTB.testBit i =
      if i = s.currentSegment + 1 then false else (s.PORTB ||| 0b00001110).testBit i) ∧
    (∀ i, (TIMER2_COMP_vect s).PORTB.testBit i =
      if i = s.currentSegment + 1 then false
      else if 1 ≤ i ∧ i ≤ 3 then true else s.PORTB.testBit i) ∧
    (TIMER2_COMP_vect s).currentSegment = (s.currentSegment + 1) % 3 ∧
    (TIMER2_COMP_vect s).currentCode0 = s.currentCode0 ∧
    (TIMER2_COMP_vect s).currentCode1 = s.currentCode1 ∧
    (TIMER2_COMP_vect s).currentCode2 = s.currentCode2 ∧
    (∀ n, (TIMER2_COMP_vect^[n] s).currentSegment = (s.currentSegment + n) % 3) ∧
    (TIMER2_COMP_vect^[1] s).currentSegment ≠ s.currentSegment ∧
    (TIMER2_COMP_vect^[2] s).currentSegment ≠ s.currentSegment ∧
    (TIMER2_COMP_vect^[3] s).currentSegment = s.currentSegment := by
  obtain ⟨hD, hB, _⟩ := tick_ports s
  obtain ⟨h0, h1, h2, _⟩ := tick_frame s
  refine ⟨hD, ?_, ?_, ?_, ?_, ?_, tick_currentSegment s hp, h0, h1, h2,
    fun n => ticks_currentSegment n s hp, ?_, ?_, ?_⟩
  · intro h; rw [hD, h]; rfl
  · intro h; rw [hD, h]; rfl
  · intro h; rw [hD, h]; rfl
  · intro i
    rw [hB]
    exact clear_bit s.PORTB s.currentSegment i hb hp
  · intro i
    rw [hB]
    exact select_bits s.PORTB s.currentSegment i hb hp
  · rw [ticks_currentSegment 1 s hp]; omega
  · rw [ticks_currentSegment 2 s hp]; omega
  · rw [ticks_currentSegment 3 s hp]; omega

/-- C13 witness: the first tick after start-up (`currentSegment = 0`, `PORTB = 0b11111110`)
outputs the glyph of H and drives only select bit 1 low: `PORTB = 0b11111100`. -/
theorem C13_refresh_tick_witness :
    (TIMER2_COMP_vect startState).PORTD = segmentCodeAt LETTER_H ∧
    (TIMER2_COMP_vect startState).PORTB = 0b11111100 ∧
    (TIMER2_COMP_vect startState).currentSegment = 1 := by
  have h := C13_refresh_tick startState (by decide) (by decide)
  exact ⟨h.2.1 rfl, by decide, h.2.2.2.2.2.2.1⟩

/-- The text path of `setSegments` is its three stores, executed in order. -/
theorem SETTEXT_stores (a b c : Nat) (s : State) :
    SETTEXT a b c s =
      ((s.writeCurrentCode 0 (segmentCodeAt a)).writeCurrentCode 1
        (segmentCodeAt b)).writeCurrentCode 2 (segmentCodeAt c) := by
  rw [SETTEXT_eq]
  rfl

/-- After `k + 1` ticks PORTD holds the element of `currentCode` at position
`(p + k) mod 3`, where `p` is the position before the first tick. -/
theorem ticks_PORTD (k : Nat) : ∀ s : State, s.currentSegment ≤ 2 →
    (TIMER2_COMP_vect^[k + 1] s).PORTD = s.readCurrentCode ((s.currentSegment + k) % 3) := by
  induction k with
  | zero =>
    intro s hp
    show (TIMER2_COMP_vect s).PORTD = _
    rw [(tick_ports s).1, Nat.add_zero, Nat.mod_eq_of_lt (by omega)]
  | succ k ih =>
    intro s hp
    have hseg := tick_currentSegment s hp
    obtain ⟨h0, h1, h2, _⟩ := tick_frame s
    rw [Function.iterate_succ_apply, ih (TIMER2_COMP_vect s) (by rw [hseg]; omega), hseg]
    have hidx : ((s.currentSegment + 1) % 3 + k) % 3 = (s.currentSegment + (k + 1)) % 3 := by
      omega
    rw [hidx]
    have hlt : (s.currentSegment + (k + 1)) % 3 < 3 := Nat.mod_lt _ (by norm_num)
    generalize (s.currentSegment + (k + 1)) % 3 = j at hlt
    interval_cases j
    · exact h0
    · exact h1
    · exact h2

/-- Closed form of one refresh tick. -/
theorem tick_eq (s : State) :
    TIMER2_COMP_vect s =
      { s with
        PORTB := (s.PORTB ||| 14) &&& ((65535 - (1 <<< (s.currentSegment + 1)) % 65536) % 256)
        PORTD := s.readCurrentCode s.currentSegment
        currentSegment := if s.currentSegment = 2 then 0 else (s.currentSegment + 1) % 256
        TCNT2 := 0 } := by
  unfold TIMER2_COMP_vect
  dsimp only
  split <;> rfl

theorem readCurrentCode_write (s : State) (i v p : Nat) (h : i ≠ p) :
    (s.writeCurrentCode i v).readCurrentCode p = s.readCurrentCode p := by
  rcases i with _ | _ | _ | i <;> rcases p with _ | _ | _ | p <;>
    first | rfl | exact absurd rfl h

theorem writeCurrentCode_currentSegment (s : State) (i v : Nat) :
    (s.writeCurrentCode i v).currentSegment = s.currentSegment ∧
    (s.writeCurrentCode i v).PORTB = s.PORTB := by
  rcases i with _ | _ | _ | i <;> exact ⟨rfl, rfl⟩

/-- A refresh tick commutes with a store to an element of `currentCode` other than
the one it outputs. -/
theorem tick_write_comm (s : State) (i v : Nat) (h : i ≠ s.currentSegment) :
    TIMER2_COMP_vect (s.writeCurrentCode i v) = (TIMER2_COMP_vect s).writeCurrentCode i v := by
  rw [tick_eq, tick_eq, readCurrentCode_write s i v _ (by
    rw [(writeCurrentCode_currentSegment s i v).1]; exact h),
    (writeCurrentCode_currentSegment s i v).1, (writeCurrentCode_currentSegment s i v).2]
  rcases i with _ | _ | _ | i <;> rfl

/-- Every `setSegments` call is three stores, to `currentCode[0]`, `[1]`, `[2]` in this
order, of values that do not depend on the state. -/
theorem setSegments_stores (num : Int) (a b c : Nat) :
    ∃ v0 v1 v2, ∀ x : State, setSegments num a b c x =
      ((x.writeCurrentCode 0 v0).writeCurrentCode 1 v1).writeCurrentCode 2 v2 := by
  by_cases h : num < 0
  · exact ⟨segmentCodeAt a, segmentCodeAt b, segmentCodeAt c, fun x => by
      rw [setSegments_text num h]; rfl⟩
  · exact ⟨segmentCodeAt (hundredsLoop (reduceThousands num) 0).2,
      segmentCodeAt (tensLoop (hundredsLoop (reduceThousands num) 0).1 0).2,
      segmentCodeAt (tensLoop (hundredsLoop (reduceThousands num) 0).1 0).1.toNat, fun x => by
        unfold setSegments
        rw [if_neg h]
        rfl⟩

/-- One refresh tick between two stores of a call leaves the state that the same
tick leaves when taken after all three stores or before all three. -/
theorem tick_between_stores (s : State) (v0 v1 v2 : Nat) :
    (((TIMER2_COMP_vect (s.writeCurrentCode 0 v0)).writeCurrentCode 1 v1).writeCurrentCode 2 v2 =
        TIMER2_COMP_vect
          (((s.writeCurrentCode 0 v0).writeCurrentCode 1 v1).writeCurrentCode 2 v2) ∨
      ((TIMER2_COMP_vect (s.writeCurrentCode 0 v0)).writeCurrentCode 1 v1).writeCurrentCode 2 v2 =
        (((TIMER2_COMP_vect s).writeCurrentCode 0 v0).writeCurrentCode 1 v1).writeCurrentCode 2
          v2) ∧
    ((TIMER2_COMP_vect ((s.writeCurrentCode 0 v0).writeCurrentCode 1 v1)).writeCurrentCode 2 v2 =
        TIMER2_COMP_vect
          (((s.writeCurrentCode 0 v0).writeCurrentCode 1 v1).writeCurrentCode 2 v2) ∨
      (TIMER2_COMP_vect ((s.writeCurrentCode 0 v0).writeCurrentCode 1 v1)).writeCurrentCode 2 v2 =
        (((TIMER2_COMP_vect s).writeCurrentCode 0 v0).writeCurrentCode 1 v1).writeCurrentCode 2
          v2) := by
  have hs0 : (s.writeCurrentCode 0 v0).currentSegment = s.currentSegment := rfl
  have hs1 : ((s.writeCurrentCode 0 v0).writeCurrentCode 1 v1).currentSegment =
      s.currentSegment := rfl
  constructor
  · by_cases hp : s.currentSegment = 0
    · left
      rw [tick_write_comm _ 2 v2 (by rw [hs1, hp]; decide),
        tick_write_comm _ 1 v1 (by rw [hs0, hp]; decide)]
    · right
      rw [tick_write_comm s 0 v0 (fun h => hp h.symm)]
  · by_cases hp : s.currentSegment = 2
    · right
      rw [tick_write_comm _ 1 v1 (by rw [hs0, hp]; decide),
        tick_write_comm s 0 v0 (by rw [hp]; decide)]
    · left
      rw [tick_write_comm _ 2 v2 (by rw [hs1]; exact fun h => hp h.symm)]

/-- C14 (counterexample): a refresh tick at start-up renders H from the start-up call
`SETTEXT(LETTER_H,1,SEG_OFF)`; a sensor edge then makes the main-loop iteration
perform `SETTEXT` with three dashes, complete and with no tick inside it; the next
two ticks render dash, dash.  The three consecutive ticks (positions 0, 1, 2) have
rendered H, dash, dash: patterns of two different calls. -/
theorem C14_frame_straddles_update_counterexample :
    startState = SETTEXT LETTER_H 1 SEG_OFF initialState ∧
    mainLoop (TIMER1_CAPT_vect 0 (TIMER2_COMP_vect startState)) =
      some (SETTEXT SYM_DASH SYM_DASH SYM_DASH
        (TIMER1_CAPT_vect 0 (TIMER2_COMP_vect startState))) ∧
    run [Event.refresh, Event.capture 0, Event.mainIteration, Event.refresh, Event.refresh]
        startState =
      some (TIMER2_COMP_vect (TIMER2_COMP_vect (SETTEXT SYM_DASH SYM_DASH SYM_DASH
        (TIMER1_CAPT_vect 0 (TIMER2_COMP_vect startState))))) ∧
    (TIMER2_COMP_vect startState).PORTD = segmentCodeAt LETTER_H ∧
    (TIMER2_COMP_vect (SETTEXT SYM_DASH SYM_DASH SYM_DASH
      (TIMER1_CAPT_vect 0 (TIMER2_COMP_vect startState)))).PORTD = segmentCodeAt SYM_DASH ∧
    (TIMER2_COMP_vect (TIMER2_COMP_vect (SETTEXT SYM_DASH SYM_DASH SYM_DASH
      (TIMER1_CAPT_vect 0 (TIMER2_COMP_vect startState))))).PORTD = segmentCodeAt SYM_DASH ∧
    segmentCodeAt LETTER_H ≠ segmentCodeAt SYM_DASH ∧
    segmentCodeAt SYM_DASH ≠ segmentCodeAt 1 ∧
    segmentCodeAt SYM_DASH ≠ segmentCodeAt SEG_OFF := by
  have hm : mainLoop (TIMER1_CAPT_vect 0 (TIMER2_COMP_vect startState)) =
      some (SETTEXT SYM_DASH SYM_DASH SYM_DASH
        (TIMER1_CAPT_vect 0 (TIMER2_COMP_vect startState))) := by
    rw [mainLoop_of_ne_two _
      (show (TIMER1_CAPT_vect 0 (TIMER2_COMP_vect startState)).captured ≠ 2 by decide)]
    rfl
  refine ⟨rfl, hm, ?_, by decide, by decide, by decide, by decide, by decide, by decide⟩
  simp only [run, step, Option.some_bind, hm]

/-- C14 (amended): every `setSegments` call (`SETTEXT` or `SETNUM`) is three stores to
`currentCode[0]`, `[1]`, `[2]`.  A refresh tick that falls between the first and the
second store, or between the second and the third, leaves the same state (ports
included) as the same tick taken just after or just before the complete call, so
the tick never observes `currentCode` half-updated.  With `currentSegment = p` in
{0,1,2}, the tick number `k + 1` after a complete call and before the next one
renders the element of `currentCode` at position `(p + k) mod 3` as that call left
it, so three consecutive ticks with no call between them render the patterns of a
single call. -/
theorem C14_display_serialisable (num : Int) (a b c : Nat) :
    ∃ v0 v1 v2,
      (∀ x : State, setSegments num a b c x =
        ((x.writeCurrentCode 0 v0).writeCurrentCode 1 v1).writeCurrentCode 2 v2) ∧
      (∀ s : State,
        ((TIMER2_COMP_vect (s.writeCurrentCode 0 v0)).writeCurrentCode 1 v1).writeCurrentCode
            2 v2 = TIMER2_COMP_vect (setSegments num a b c s) ∨
        ((TIMER2_COMP_vect (s.writeCurrentCode 0 v0)).writeCurrentCode 1 v1).writeCurrentCode
            2 v2 = setSegments num a b c (TIMER2_COMP_vect s)) ∧
      (∀ s : State,
        (TIMER2_COMP_vect ((s.writeCurrentCode 0 v0).writeCurrentCode 1 v1)).writeCurrentCode
            2 v2 = TIMER2_COMP_vect (setSegments num a b c s) ∨
        (TIMER2_COMP_vect ((s.writeCurrentCode 0 v0).writeCurrentCode 1 v1)).writeCurrentCode
            2 v2 = setSegments num a b c (TIMER2_COMP_vect s)) ∧
      (∀ (s : State) (k : Nat), s.currentSegment ≤ 2 →
        (TIMER2_COMP_vect^[k + 1] (setSegments num a b c s)).PORTD =
          (setSegments num a b c s).readCurrentCode ((s.currentSegment + k) % 3)) := by
  obtain ⟨v0, v1, v2, hst⟩ := setSegments_stores num a b c
  refine ⟨v0, v1, v2, hst, ?_, ?_, ?_⟩
  · intro s
    rw [hst s, hst (TIMER2_COMP_vect s)]
    exact (tick_between_stores s v0 v1 v2).1
  · intro s
    rw [hst s, hst (TIMER2_COMP_vect s)]
    exact (tick_between_stores s v0 v1 v2).2
  · intro s k hp
    have hseg : (setSegments num a b c s).currentSegment = s.currentSegment := by
      rw [hst s]
      rfl
    have h := ticks_PORTD k (setSegments num a b c s) (by rw [hseg]; exact hp)
    rw [hseg] at h
    exact h

/-- C14 witness: three ticks after the complete start-up call
`SETTEXT(LETTER_H,1,SEG_OFF)` render H, 1, off. -/
theorem C14_display_serialisable_witness :
    (TIMER2_COMP_vect^[1] (SETTEXT LETTER_H 1 SEG_OFF initialState)).PORTD =
      segmentCodeAt LETTER_H ∧
    (TIMER2_COMP_vect^[2] (SETTEXT LETTER_H 1 SEG_OFF initialState)).PORTD =
      segmentCodeAt 1 ∧
    (TIMER2_COMP_vect^[3] (SETTEXT LETTER_H 1 SEG_OFF initialState)).PORTD =
      segmentCodeAt SEG_OFF := by
  obtain ⟨v0, v1, v2, _, _, _, h⟩ := C14_display_serialisable (-1) LETTER_H 1 SEG_OFF
  exact ⟨h initialState 0 (by decide), h initialState 1 (by decide),
    h initialState 2 (by decide)⟩

/-! Section: purity, rounding, invariant (C15, C16, C17) -/

/-- C15: `calculateSpeed` always returns, and its result depends only on `capture[0]`,
`capture[1]` and `overflows`: two states that agree on these three variables give
the same result, whatever `captured`, `currentCode[]`, `currentSegment` and the ports
hold.  The function assigns only to its local variables, so in the embedding it
maps the state to the returned value and has no state to hand back; a main-loop
iteration on `captured = 2` accordingly returns the state that `SETNUM` of the
returned value and the two resets produce from the state before the call. -/
theorem C15_calculateSpeed_pure (s t : State) (h0 : t.capture0 = s.capture0)
    (h1 : t.capture1 = s.capture1) (hov : t.overflows = s.overflows) :
    calculateSpeed t = calculateSpeed s ∧
    (∃ v, calculateSpeed s = some v ∧
      (s.captured = 2 →
        mainLoop s = some { SETNUM v s with overflows := 0, captured := 0 })) := by
  refine ⟨calculateSpeed_congr s t h0 h1 hov, speedOf (denominatorOf s),
    calculateSpeed_eq s, fun h => mainLoop_of_two s h⟩

/-- C15 witness: the pending result of scenario 1 and a state that has the same
`capture[]` and `overflows` but differs in `captured`, `currentSegment`,
`currentCode[]` and the ports. -/
theorem C15_calculateSpeed_pure_witness :
    calculateSpeed
        { currentSegment := 2, currentCode0 := 1, currentCode1 := 2, currentCode2 := 3,
          overflows := 0, captured := 0, capture0 := 0, capture1 := 375,
          PORTB := 0, PORTD := 0, TCNT2 := 7 } =
      calculateSpeed (pendingState 0 375 0) :=
  (C15_calculateSpeed_pure (pendingState 0 375 0)
    { currentSegment := 2, currentCode0 := 1, currentCode1 := 2, currentCode2 := 3,
      overflows := 0, captured := 0, capture0 := 0, capture1 := 375,
      PORTB := 0, PORTD := 0, TCNT2 := 7 } rfl rfl rfl).1

/-- C16: `halfNumerator = MAX_SPEED/2` is 18750.  For every state whose 32-bit
denominator `d` satisfies `38 ≤ d ≤ 37500` the remainder `37500 mod d` is below
18750 and `calculateSpeed` returns exactly `floor(37500 / d)`; for `d > 37500` it
returns 1; it never returns 0.  Every `d` below 2^32 is the denominator of some
state. -/
theorem C16_rounding_step (s : State) :
    MAX_SPEED / 2 = 18750 ∧
    (38 ≤ denominatorOf s → denominatorOf s ≤ 37500 →
      37500 % denominatorOf s < 18750 ∧
      calculateSpeed s = some ((37500 / denominatorOf s : Nat) : Int)) ∧
    (37500 < denominatorOf s → calculateSpeed s = some 1) ∧
    calculateSpeed s ≠ some 0 ∧
    (∀ d, d < 4294967296 → denominatorOf (pendingState 0 (d % 65536) (d / 65536)) = d) := by
  refine ⟨by decide, ?_, ?_, ?_, ?_⟩
  · intro h1 h2
    refine ⟨?_, by rw [calculateSpeed_eq, speedOf_of_le _ h1 h2]⟩
    have hq : 1 ≤ 37500 / denominatorOf s := (Nat.one_le_div_iff (by omega)).2 h2
    have hm := Nat.div_add_mod 37500 (denominatorOf s)
    have hmul : denominatorOf s ≤ denominatorOf s * (37500 / denominatorOf s) :=
      Nat.le_mul_of_pos_right _ hq
    have hlt : 37500 % denominatorOf s < denominatorOf s := Nat.mod_lt _ (by omega)
    omega
  · intro h
    rw [calculateSpeed_eq, speedOf_of_gt _ h]
  · rw [calculateSpeed_eq]
    intro h
    have h0 : speedOf (denominatorOf s) = 0 := Option.some.inj h
    by_cases hd : denominatorOf s ≤ 37
    · unfold speedOf at h0
      rw [if_pos hd] at h0
      omega
    · have := speedOf_range (denominatorOf s) (by omega)
      omega
  · intro d hd
    simp only [denominatorOf, pendingState]
    omega

/-- C16 witness: denominator 6536 (scenario 2) gives `floor(37500/6536) = 5`;
denominator 65536 gives 1. -/
theorem C16_rounding_step_witness :
    calculateSpeed (pendingState 60000 1000 1) = some 5 ∧
    calculateSpeed (pendingState 0 0 1) = some 1 :=
  ⟨((C16_rounding_step (pendingState 60000 1000 1)).2.1 (by decide) (by decide)).2,
   (C16_rounding_step (pendingState 0 0 1)).2.2.1 (by decide)⟩

/-- A step with a 16-bit counter value keeps both timestamps within 16 bits. -/
theorem step_capture_bound (e : Event) (s t : State) (h : step e s = some t)
    (he : ∀ c, e = Event.capture c → c < 65536)
    (hs : s.capture0 < 65536 ∧ s.capture1 < 65536) :
    t.capture0 < 65536 ∧ t.capture1 < 65536 := by
  cases e with
  | capture c =>
    have hc := he c rfl
    simp only [step, Option.some.injEq] at h
    subst h
    unfold TIMER1_CAPT_vect
    by_cases h0 : s.captured = 0
    · simp [h0, State.writeCapture, hc, hs.2]
    · by_cases h1 : s.captured = 1
      · simp [h1, State.writeCapture, hc, hs.1]
      · have h2 : ¬ s.captured < 2 := by omega
        rw [if_neg h2]
        exact hs
  | overflow =>
    obtain ⟨u, hu, hinv⟩ : ∃ u, step Event.overflow s = some u ∧
        u.capture0 = s.capture0 ∧ u.capture1 = s.capture1 := by
      refine ⟨_, rfl, ?_⟩
      unfold TIMER1_OVF_vect
      dsimp only
      split
      · split <;> exact ⟨rfl, rfl⟩
      · exact ⟨rfl, rfl⟩
    rw [hu] at h
    cases h
    rw [hinv.1, hinv.2]
    exact hs
  | refresh =>
    simp only [step, Option.some.injEq] at h
    subst h
    obtain ⟨_, _, _, _, _, h0, h1⟩ := tick_frame s
    rw [h0, h1]
    exact hs
  | mainIteration =>
    obtain ⟨u, hu, h0, h1, _⟩ := mainLoop_capture s
    simp only [step] at h
    rw [hu] at h
    cases h
    rw [h0, h1]
    exact hs

theorem run_capture_bound (evs : List Event) : ∀ s t : State, run evs s = some t →
    (∀ c, Event.capture c ∈ evs → c < 65536) →
    s.capture0 < 65536 ∧ s.capture1 < 65536 →
    t.capture0 < 65536 ∧ t.capture1 < 65536 := by
  induction evs with
  | nil =>
    intro s t h _ hs
    simp only [run, Option.some.injEq] at h
    subst h
    exact hs
  | cons e es ih =>
    intro s t h hev hs
    obtain ⟨u, hu⟩ := step_total e s
    simp only [run, hu, Option.some_bind] at h
    refine ih u t h (fun c hc => hev c (List.mem_cons_of_mem e hc)) ?_
    exact step_capture_bound e s u hu
      (fun c hc => hev c (by rw [hc]; exact List.mem_cons_self _ _)) hs

/-- C17: every finite sequence of sensor edges, wraps, refresh ticks and main-loop
iterations run from start-up returns a state with `overflows ≤ MAX_OVERFLOWS + 1 = 2`
in which `overflows > MAX_OVERFLOWS` implies `captured = 0`; equivalently
`captured` in {1, 2} implies `overflows ≤ MAX_OVERFLOWS`.  When the counter values
of the sensor edges are 16-bit, the interval of such a state is therefore built from
at most `MAX_OVERFLOWS` wraps and is at most 65535 + 65536. -/
theorem C17_counter_invariant (evs : List Event) :
    ∃ s, run evs startState = some s ∧
      MAX_OVERFLOWS + 1 = 2 ∧
      s.overflows ≤ MAX_OVERFLOWS + 1 ∧
      (MAX_OVERFLOWS < s.overflows → s.captured = 0) ∧
      (s.captured = 1 ∨ s.captured = 2 → s.overflows ≤ MAX_OVERFLOWS) ∧
      ((∀ c, Event.capture c ∈ evs → c < 65536) → (s.captured = 1 ∨ s.captured = 2) →
        s.capture1 + s.overflows * 65536 ≤ 65535 + 65536 ∧
        specInterval s ≤ 65535 + 65536) := by
  obtain ⟨s, hs, _, hov, himp⟩ := run_invariant evs startState startState_invariant
  have hM : MAX_OVERFLOWS = 1 := by decide
  have hle : s.captured = 1 ∨ s.captured = 2 → s.overflows ≤ MAX_OVERFLOWS := by
    intro hc
    by_contra hcon
    have := himp (by omega)
    omega
  refine ⟨s, hs, by decide, hov, himp, hle, ?_⟩
  intro hev hc
  have hb := run_capture_bound evs startState s hs hev (by decide)
  have ho := hle hc
  rw [hM] at ho
  unfold specInterval
  omega

/-- C17 witness: a sensor edge at 60000, a wrap and a sensor edge at 1000 reach the
pending result of scenario 2, with `overflows = 1` and interval 6536. -/
theorem C17_counter_invariant_witness :
    ∃ s, run [Event.capture 60000, Event.overflow, Event.capture 1000] startState = some s ∧
      MAX_OVERFLOWS + 1 = 2 ∧
      s.overflows ≤ MAX_OVERFLOWS + 1 ∧
      (MAX_OVERFLOWS < s.overflows → s.captured = 0) ∧
      (s.captured = 1 ∨ s.captured = 2 → s.overflows ≤ MAX_OVERFLOWS) ∧
      ((∀ c, Event.capture c ∈ [Event.capture 60000, Event.overflow, Event.capture 1000] →
          c < 65536) → (s.captured = 1 ∨ s.captured = 2) →
        s.capture1 + s.overflows * 65536 ≤ 65535 + 65536 ∧
        specInterval s ≤ 65535 + 65536) :=
  C17_counter_invariant [Event.capture 60000, Event.overflow, Event.capture 1000]

/-! Section: priority chain, interval arithmetic, termination (C18, C19, C20) -/

/-- C18: in every state reachable from start-up, one main-loop iteration as coded
(three `if` statements tested in sequence) returns the same state as the prioritized
chain of the spec. -/
theorem C18_priority_chain (evs : List Event) (s : State)
    (hreach : run evs startState = some s) :
    mainLoop s = specMainLoop s := by
  obtain ⟨s2, hs2, hinv⟩ := run_invariant evs startState startState_invariant
  rw [hreach] at hs2
  cases hs2
  obtain ⟨_, _, himp⟩ := hinv
  unfold specMainLoop
  by_cases hov : MAX_OVERFLOWS < s.overflows
  · have hc := himp hov
    rw [mainLoop_of_ne_two s (by omega), if_neg (by omega), if_pos hov, if_pos hov]
  · rw [if_neg hov]
    by_cases h1 : s.captured = 1
    · rw [mainLoop_of_ne_two s (by omega), if_pos h1, if_pos h1]
    · rw [if_neg h1]
      by_cases h2 : s.captured = 2
      · rw [mainLoop_of_two s h2, if_pos h2, calculateSpeed_eq]
      · rw [mainLoop_of_ne_two s h2, if_neg h1, if_neg hov, if_neg h2]

/-- C18 witness: after a sensor edge and two wraps (`captured = 0`, `overflows = 2`)
both forms show the "too slow" message. -/
theorem C18_priority_chain_witness :
    mainLoop { startState with overflows := 2 } =
      specMainLoop { startState with overflows := 2 } :=
  C18_priority_chain [Event.capture 0, Event.overflow, Event.overflow]
    { startState with overflows := 2 } (by decide)

/-- C19: for 16-bit `capture[0]`, `capture[1]` and `overflows` with
`capture[1] + overflows*65536 ≥ capture[0]`, neither the 32-bit addition nor the
32-bit subtraction of `calculateSpeed` wraps, and the denominator equals the
mathematical Interval `t_second + OverflowCount·2^16 − t_first`. -/
theorem C19_interval_exact (s : State) (h0 : s.capture0 < 65536) (h1 : s.capture1 < 65536)
    (hov : s.overflows < 65536) (hle : s.capture0 ≤ s.capture1 + s.overflows * 65536) :
    s.overflows * 65536 < 4294967296 ∧
    s.capture1 + s.overflows * 65536 < 4294967296 ∧
    (s.capture1 + (s.overflows * 65536) % 4294967296) % 4294967296 =
      s.capture1 + s.overflows * 65536 ∧
    denominatorOf s = s.capture1 + s.overflows * 65536 - s.capture0 ∧
    ((denominatorOf s : Nat) : Int) = specInterval s := by
  have hd := denominatorOf_of_le s h0 h1 hov hle
  refine ⟨by omega, by omega, by omega, hd, ?_⟩
  rw [hd]
  unfold specInterval
  omega

/-- C19 witness: `capture = {60000, 1000}`, `overflows = 1` gives 6536. -/
theorem C19_interval_exact_witness :
    denominatorOf (pendingState 60000 1000 1) = 6536 ∧
    ((denominatorOf (pendingState 60000 1000 1) : Nat) : Int) =
      specInterval (pendingState 60000 1000 1) := by
  have h := C19_interval_exact (pendingState 60000 1000 1) (by decide) (by decide)
    (by decide) (by decide)
  exact ⟨h.2.2.2.1, h.2.2.2.2⟩

/-- With a positive denominator, fewer loop tests than the quotient plus one do not
reach the end of the loop. -/
theorem divLoop_none (fuel : Nat) : ∀ (n d : Nat) (r : Int), 0 < d → n < 4294967296 →
    fuel ≤ n / d → divLoop fuel n d r = none := by
  induction fuel with
  | zero => intro n d r _ _ _; rfl
  | succ k ih =>
    intro n d r hd hn hq
    unfold divLoop
    have hdn : d ≤ n := by
      by_contra hcon
      have : n / d = 0 := Nat.div_eq_of_lt (by omega)
      omega
    have hsub : (n + 4294967296 - d) % 4294967296 = n - d := by omega
    have hdiv : n / d = (n - d) / d + 1 := by
      have h1 : n = (n - d) + d := by omega
      conv_lhs => rw [h1]
      exact Nat.add_div_right _ hd
    rw [if_pos hdn, hsub]
    exact ih (n - d) d (r + 1) hd (by omega) (by omega)

/-- C20: `calculateSpeed` returns for every state.  With the denominator in 0..37 the
guard returns -1 before the loop; otherwise the denominator `d` is at least 38,
every iteration strictly decreases `numerator`, the loop makes exactly
`floor(37500 / d) ≤ 986` iterations (so 987 loop tests suffice and during
`floor(37500 / d)` tests the loop is still running), and it exits with
`numerator = 37500 mod d` and `result = floor(37500 / d)`. -/
theorem C20_termination (s : State) :
    (∃ v, calculateSpeed s = some v) ∧
    MAX_SPEED / 999 = 37 ∧
    (denominatorOf s ≤ 37 → calculateSpeed s = some (-1)) ∧
    (38 ≤ denominatorOf s →
      37500 / denominatorOf s ≤ 986 ∧
      (∀ fuel n r, denominatorOf s ≤ n → n < 4294967296 →
        ∃ m, m < n ∧
          divLoop (fuel + 1) n (denominatorOf s) r = divLoop fuel m (denominatorOf s) (r + 1)) ∧
      (∀ fuel, 37500 / denominatorOf s < fuel →
        divLoop fuel MAX_SPEED (denominatorOf s) 0 =
          some (37500 % denominatorOf s, ((37500 / denominatorOf s : Nat) : Int))) ∧
      divLoop 987 MAX_SPEED (denominatorOf s) 0 =
        some (37500 % denominatorOf s, ((37500 / denominatorOf s : Nat) : Int)) ∧
      divLoop (37500 / denominatorOf s) MAX_SPEED (denominatorOf s) 0 = none) := by
  refine ⟨⟨_, calculateSpeed_eq s⟩, by decide, ?_, ?_⟩
  · intro h
    rw [calculateSpeed_eq, speedOf, if_pos h]
  · intro h
    have hq : 37500 / denominatorOf s < 987 :=
      (Nat.div_lt_iff_lt_mul (by omega)).2 (by omega)
    have hfuel : ∀ fuel, 37500 / denominatorOf s < fuel →
        divLoop fuel MAX_SPEED (denominatorOf s) 0 =
          some (37500 % denominatorOf s, ((37500 / denominatorOf s : Nat) : Int)) := by
      intro fuel hf
      have := divLoop_eq fuel 37500 (denominatorOf s) 0 (by omega) (by norm_num) hf
      rw [Int.zero_add] at this
      exact this
    refine ⟨by omega, ?_, hfuel, hfuel 987 hq, ?_⟩
    · intro fuel n r hdn hn
      refine ⟨(n + 4294967296 - denominatorOf s) % 4294967296, by omega, ?_⟩
      conv_lhs => unfold divLoop
      rw [if_pos hdn]
    · exact divLoop_none _ 37500 (denominatorOf s) 0 (by omega) (by norm_num) (Nat.le_refl _)

/-- C20 witness: denominator 38 (`capture = {0, 38}`) needs the full 986 iterations;
denominator 10 returns -1 before the loop. -/
theorem C20_termination_witness :
    divLoop 987 MAX_SPEED 38 0 = some (32, 986) ∧
    calculateSpeed (pendingState 0 10 0) = some (-1) :=
  ⟨((C20_termination (pendingState 0 38 0)).2.2.2 (by decide)).2.2.2.1,
   (C20_termination (pendingState 0 10 0)).2.2.1 (by decide)⟩

end NerfSpeed
